import Mathlib

/-!
Shallow embedding of `src/jeu2/js.js` — a Space-Invaders-style game.

Coordinates and sizes are JS numbers; they are embedded as rationals (ℚ),
which model the arithmetic the code performs exactly on the values the
game actually produces.  Rendering-only state (images, animation timers,
canvas contexts) is omitted: it never feeds back into positions, alive
flags, collisions or state transitions.
-/

namespace Jeu2

/-- Screen width (`const WIDTH = 800`). -/
def WIDTH : ℚ := 800

/-- Screen height (`const HEIGHT = 600`). -/
def HEIGHT : ℚ := 600

/-- A sprite's bounding box (`this.rect = { x, y, width, height }`). -/
structure Rect where
  x : ℚ
  y : ℚ
  w : ℚ
  h : ℚ
  deriving DecidableEq, Repr

/-- Embeds `SpriteGroup.checkCollision(rect1, rect2)`: axis-aligned box overlap. -/
def checkCollision (r1 r2 : Rect) : Bool :=
  decide (r1.x < r2.x + r2.w) && decide (r1.x + r1.w > r2.x) &&
  decide (r1.y < r2.y + r2.h) && decide (r1.y + r1.h > r2.y)

/-- A sprite: bounding box plus the `isAlive` flag of the base `Sprite`
class (`this.isAlive = true`).  Per-kind fields that never influence the
simulation (images, animation index) are not modelled. -/
structure Sp where
  rect : Rect
  alive : Bool
  deriving DecidableEq, Repr

/-- Embeds `Sprite.kill()`: sets `isAlive = false`. -/
def kill (s : Sp) : Sp := { s with alive := false }

/-- Embeds `new Player()`: `setRect('midbottom', WIDTH/2, HEIGHT-10, 50, 60)`
gives x = 400 − 25 = 375, y = 590 − 60 = 530; alive at construction. -/
def mkPlayer : Sp :=
  { rect := { x := 400 - 50 / 2, y := 590 - 60, w := 50, h := 60 }, alive := true }

/-- Embeds `new Bullet(pos)`: `setRect('midbottom', pos.x, pos.y, 5, 15)`. -/
def mkBullet (px py : ℚ) : Sp :=
  { rect := { x := px - 5 / 2, y := py - 15, w := 5, h := 15 }, alive := true }

/-- Embeds `new EnemyBullet(pos)`: `setRect('midtop', pos.x, pos.y, 5, 15)`. -/
def mkEnemyBullet (px py : ℚ) : Sp :=
  { rect := { x := px - 5 / 2, y := py, w := 5, h := 15 }, alive := true }

/-- Embeds `new Alien(pos)`: `setRect('topleft', pos.x, pos.y, 30, 20)`. -/
def mkAlien (px py : ℚ) : Sp :=
  { rect := { x := px, y := py, w := 30, h := 20 }, alive := true }

/-- Embeds `Player.update()`: move left by 3 while ArrowLeft is held and `x > 0`,
then move right by 3 while ArrowRight is held and `x + width < WIDTH`
(the second test reads the already-moved x, as in the source). -/
def playerUpdate (left right : Bool) (s : Sp) : Sp :=
  let s1 := if left && decide (s.rect.x > 0) then
      { s with rect := { s.rect with x := s.rect.x - 3 } } else s
  let s2 := if right && decide (s1.rect.x + s1.rect.w < WIDTH) then
      { s1 with rect := { s1.rect with x := s1.rect.x + 3 } } else s1
  s2

/-- Embeds `Bullet.update()`: `y -= 7`; kill when `y + height < 0`. -/
def bulletUpdate (s : Sp) : Sp :=
  let s1 := { s with rect := { s.rect with y := s.rect.y - 7 } }
  if decide (s1.rect.y + s1.rect.h < 0) then kill s1 else s1

/-- Embeds `EnemyBullet.update()`: `y += 3`; kill when `y > HEIGHT`. -/
def enemyBulletUpdate (s : Sp) : Sp :=
  let s1 := { s with rect := { s.rect with y := s.rect.y + 3 } }
  if decide (s1.rect.y > HEIGHT) then kill s1 else s1

/-- Embeds `Alien.update(moving_right, speed_multiplier)`: horizontal step of
`0.5 * speed_multiplier` in the formation direction.  (The two-frame
animation toggle only swaps images and is not modelled.) -/
def alienUpdate (movingRight : Bool) (mult : ℚ) (s : Sp) : Sp :=
  if movingRight then { s with rect := { s.rect with x := s.rect.x + 1 / 2 * mult } }
  else { s with rect := { s.rect with x := s.rect.x - 1 / 2 * mult } }

/-- Embeds `SpriteGroup.update(...)`: the source filters the sprite array, and for
each sprite alive *at entry* runs its update (which may kill it) and keeps
it; sprites dead at entry are dropped.  Since one sprite's update never
touches another sprite, this equals filtering on the entry alive flag and
then mapping the per-kind update. -/
def groupUpdate (f : Sp → Sp) (l : List Sp) : List Sp :=
  (l.filter (fun s => s.alive)).map f

/-- Embeds `SpriteGroup.spriteCollide(sprite, group, dokill)`: returns the sprites
of the group that are alive and overlap the probe (none when the probe is
dead), and the group with those sprites killed when `dokill`.  The source's
`forEach` has independent iterations, so it is a filter plus a map. -/
def spriteCollide (probe : Sp) (l : List Sp) (dokill : Bool) : List Sp × List Sp :=
  if probe.alive = false then ([], l)
  else
    (l.filter (fun s => s.alive && checkCollision probe.rect s.rect),
     l.map (fun s =>
       if s.alive && checkCollision probe.rect s.rect && dokill then kill s else s))

/-- Row-major index pairs visited by the nested `forEach` of
`SpriteGroup.groupCollide`. -/
def pairIndices (m n : Nat) : List (Nat × Nat) :=
  (List.range m).flatMap (fun i => (List.range n).map (fun j => (i, j)))

/-- The mutable state threaded through `groupCollide`: the two sprite
arrays (mutated in place by `kill`) and the recorded collisions, kept here
as index pairs in visit order. -/
structure GCState where
  g1 : List Sp
  g2 : List Sp
  colls : List (Nat × Nat)
  deriving Repr

/-- One iteration of `groupCollide`'s nested loop at pair `(i, j)`: when
both sprites are currently alive and overlap, record the pair and kill
each side per its flag. -/
def gcStep (k1 k2 : Bool) (st : GCState) (p : Nat × Nat) : GCState :=
  match st.g1[p.1]?, st.g2[p.2]? with
  | some s1, some s2 =>
    if s1.alive && s2.alive && checkCollision s1.rect s2.rect then
      { g1 := if k1 then st.g1.set p.1 (kill s1) else st.g1
        g2 := if k2 then st.g2.set p.2 (kill s2) else st.g2
        colls := st.colls ++ [p] }
    else st
  | _, _ => st

/-- Embeds `SpriteGroup.groupCollide(group1, group2, dokill1, dokill2)`: fold the
step over all pairs in the nested loop's row-major order. -/
def groupCollide (l1 l2 : List Sp) (k1 k2 : Bool) : GCState :=
  (pairIndices l1.length l2.length).foldl (gcStep k1 k2) ⟨l1, l2, []⟩

/-- The keys `updatePlaying` reads from `pressedKeys`. -/
structure Keys where
  left : Bool
  right : Bool
  space : Bool
  keyR : Bool
  keyQ : Bool
  deriving Repr

/-- The mutable session state a `PLAYING` frame reads and writes:
the four sprite groups, the formation direction, `initialAlienCount`
and `currentLevel`.  The player's `SpriteGroupSingle` is its (zero- or
one-element) sprite array. -/
structure PlayState where
  level : Nat
  players : List Sp
  bullets : List Sp
  enemyBullets : List Sp
  aliens : List Sp
  movingRight : Bool
  initialAlienCount : Nat
  deriving Repr

/-- Outcome of one `updatePlaying` call: either it falls through
(`cont`), or it returns early after setting `gameState = 'MENU'` (KeyR),
cancelling the loop (KeyQ), `'GAME_OVER'`, or `'LEVEL_COMPLETE'`. -/
inductive Outcome where
  | cont
  | toMenu
  | quit
  | gameOver
  | levelComplete
  deriving DecidableEq, Repr

/-- The player-shooting part of `updatePlaying` (lines 494–504): while
Space is held and `now - lastShotTime > SHOOT_DELAY` (500), spawn a
`Bullet` at the player's top-centre and reset `lastShotTime`. -/
def shootStage (space : Bool) (now lastShot : ℚ) (players bullets : List Sp) :
    List Sp × ℚ :=
  if space && decide (now - lastShot > 500) then
    match players.head? with
    | some p => (bullets ++ [mkBullet (p.rect.x + p.rect.w / 2) p.rect.y], now)
    | none => (bullets, lastShot)
  else (bullets, lastShot)

/-- Embeds the `speedMultiplier` computation of `updatePlaying` (lines 547–550):
`1 + (initialAlienCount - alienGroup.length) / initialAlienCount` when
the alien group is non-empty, else 1. -/
def speedMultiplier (initCount curCount : Nat) : ℚ :=
  if 0 < curCount then
    1 + ((initCount : ℚ) - (curCount : ℚ)) / (initCount : ℚ)
  else 1

/-- The group-update and alien-movement part of `updatePlaying`
(lines 522–551): update the player, bullet and enemy-bullet groups; scan
all aliens for the screen edge in the current direction; on reversal flip
`movingRight` and shift every alien down by `10 + currentLevel * 5`; then
update the alien group with the direction and speed multiplier. -/
def moveStage (k : Keys) (s : PlayState) : PlayState :=
  let players := groupUpdate (playerUpdate k.left k.right) s.players
  let bullets := groupUpdate bulletUpdate s.bullets
  let enemyBullets := groupUpdate enemyBulletUpdate s.enemyBullets
  let changeDirection := s.aliens.any (fun a =>
    (s.movingRight && decide (a.rect.x + a.rect.w ≥ WIDTH)) ||
    (!s.movingRight && decide (a.rect.x ≤ 0)))
  let movingRight := if changeDirection then !s.movingRight else s.movingRight
  let descentAmount : ℚ := 10 + (s.level : ℚ) * 5
  let aliens := if changeDirection then
      s.aliens.map (fun a => { a with rect := { a.rect with y := a.rect.y + descentAmount } })
    else s.aliens
  let mult := speedMultiplier s.initialAlienCount aliens.length
  let aliens := groupUpdate (alienUpdate movingRight mult) aliens
  { level := s.level, players := players, bullets := bullets,
    enemyBullets := enemyBullets, aliens := aliens,
    movingRight := movingRight, initialAlienCount := s.initialAlienCount }

/-- The collision and outcome part of `updatePlaying` (lines 554–576):
player bullets vs aliens (both killed); player vs enemy bullets (bullet
killed, `GAME_OVER`, early return); player vs aliens (no kill,
`GAME_OVER`, early return); empty alien group (`LEVEL_COMPLETE`). -/
def collideStage (s : PlayState) : Outcome × PlayState :=
  let gc := groupCollide s.bullets s.aliens true true
  let s1 := { s with bullets := gc.g1, aliens := gc.g2 }
  match s1.players.head? with
  | some p =>
    let hitB := spriteCollide p s1.enemyBullets true
    if hitB.1.length > 0 then
      (Outcome.gameOver, { s1 with enemyBullets := hitB.2 })
    else
      let hitA := spriteCollide p s1.aliens false
      if hitA.1.length > 0 then (Outcome.gameOver, s1)
      else if s1.aliens.length = 0 then (Outcome.levelComplete, s1)
      else (Outcome.cont, s1)
  | none =>
    if s1.aliens.length = 0 then (Outcome.levelComplete, s1)
    else (Outcome.cont, s1)

/-- Embeds `updatePlaying()`: shooting, then the KeyR / KeyQ early returns
(lines 507–519), then group updates, alien movement, collisions and the
outcome checks.  Returns the outcome, the session state after the frame
and the new `lastShotTime`. -/
def updatePlaying (k : Keys) (now lastShot : ℚ) (s : PlayState) :
    Outcome × PlayState × ℚ :=
  let shot := shootStage k.space now lastShot s.players s.bullets
  let s1 := { s with bullets := shot.1 }
  if k.keyR then (Outcome.toMenu, s1, shot.2)
  else if k.keyQ then (Outcome.quit, s1, shot.2)
  else
    let oc := collideStage (moveStage k s1)
    (oc.1, oc.2, shot.2)

/-- The alien formation built by `startGameLoop` for a given level:
`rows = 3 + (currentLevel - 1)` rows of 10 aliens at
`(col*60 + 50, row*50 + 30)`, added row-major. -/
def mkAliens (level : Nat) : List Sp :=
  (List.range (3 + (level - 1))).flatMap (fun (row : Nat) =>
    (List.range 10).map (fun (col : Nat) =>
      mkAlien ((col : ℚ) * 60 + 50) ((row : ℚ) * 50 + 30)))

/-- Embeds `startGameLoop`'s enemy-fire timer period:
`Math.max(600 - (currentLevel - 1) * 100, 300)` milliseconds. -/
def alienShootInterval (level : Nat) : ℤ :=
  max (600 - ((level : ℤ) - 1) * 100) 300

/-- Embeds `startGameLoop()`: fresh groups for the level — a new player, empty
bullet groups, the alien formation, `initialAlienCount` recorded from the
group's length, and `movingRight = true`.  (The recurring fire timer and
`lastShotTime` reset are wall-clock effects modelled separately by
`alienShootInterval`.) -/
def startGameLoop (level : Nat) : PlayState :=
  let aliens := mkAliens level
  { level := level, players := [mkPlayer], bullets := [], enemyBullets := [],
    aliens := aliens, movingRight := true, initialAlienCount := aliens.length }

/-- The top-level `gameState` tags. -/
inductive GState where
  | MENU
  | INSTRUCTIONS
  | PLAYING
  | LEVEL_COMPLETE
  | GAME_OVER
  | VICTORY
  deriving DecidableEq, Repr

/-- Embeds `updateLevelComplete()`: on Enter or Escape, `currentLevel++`; if the
new level exceeds 3 go to `VICTORY`, otherwise go to `PLAYING` and run
`startGameLoop` for the new level.  Returns the level, the state tag and
the session created (if any). -/
def updateLevelComplete (enter escape : Bool) (level : Nat) :
    Nat × GState × Option PlayState :=
  if enter || escape then
    let level1 := level + 1
    if level1 > 3 then (level1, GState.VICTORY, none)
    else (level1, GState.PLAYING, some (startGameLoop level1))
  else (level, GState.LEVEL_COMPLETE, none)

/-- Player positions reachable in a session: the `Player` constructor's
rect, closed under `Player.update` with any held keys. -/
inductive ReachablePlayer : Sp → Prop where
  | init : ReachablePlayer mkPlayer
  | step (left right : Bool) (s : Sp) :
      ReachablePlayer s → ReachablePlayer (playerUpdate left right s)

/-- Invariant maintained by the reachable player: width 50 and an
x-coordinate that is a natural multiple of the speed 3, at most 750. -/
def PlayerInv (s : Sp) : Prop :=
  s.rect.w = 50 ∧ ∃ k : ℕ, s.rect.x = 3 * (k : ℚ) ∧ (k : ℚ) ≤ 250

/-- Invariant threaded through `groupCollide`'s loop, first-group side:
aliveness in `g1` only ever decreases from the initial array `l1`; when
`dokill1` is set, recorded first components are pairwise distinct and all
point at sprites already dead in `g1`; and every recorded first component
was alive in `l1`. -/
def GCInv1 (k1 : Bool) (l1 : List Sp) (st : GCState) : Prop :=
  (∀ i : Nat, (st.g1[i]?).map Sp.alive = some true → (l1[i]?).map Sp.alive = some true) ∧
  (k1 = true → (st.colls.map Prod.fst).Nodup ∧
    ∀ p ∈ st.colls, (st.g1[p.1]?).map Sp.alive = some false) ∧
  (∀ p ∈ st.colls, (l1[p.1]?).map Sp.alive = some true)

/-- Mirror of `GCInv1` for the second group. -/
def GCInv2 (k2 : Bool) (l2 : List Sp) (st : GCState) : Prop :=
  (∀ j : Nat, (st.g2[j]?).map Sp.alive = some true → (l2[j]?).map Sp.alive = some true) ∧
  (k2 = true → (st.colls.map Prod.snd).Nodup ∧
    ∀ p ∈ st.colls, (st.g2[p.2]?).map Sp.alive = some false) ∧
  (∀ p ∈ st.colls, (l2[p.2]?).map Sp.alive = some true)

/-- Key table with nothing held, for concrete frame evaluations. -/
def idleKeys : Keys :=
  { left := false, right := false, space := false, keyR := false, keyQ := false }

/-- Concrete PLAYING frame: the player overlapped by one enemy bullet
(after the bullet's downward step), one alien far away. -/
def hitState : PlayState :=
  { level := 1, players := [mkPlayer], bullets := [],
    enemyBullets := [mkEnemyBullet 400 530], aliens := [mkAlien 100 100],
    movingRight := true, initialAlienCount := 30 }

/-- Concrete PLAYING frame: a single alien at x = 790 of width 30 (right
edge 820 ≥ 800) with the formation moving rightward, level 1. -/
def edgeState : PlayState :=
  { level := 1, players := [mkPlayer], bullets := [], enemyBullets := [],
    aliens := [mkAlien 790 30], movingRight := true, initialAlienCount := 30 }

/-- Concrete PLAYING frame: every alien already dead, no enemy bullets. -/
def clearedState : PlayState :=
  { level := 1, players := [mkPlayer], bullets := [], enemyBullets := [],
    aliens := [{ rect := { x := 1, y := 1, w := 30, h := 20 }, alive := false }],
    movingRight := true, initialAlienCount := 30 }

/-! ### Helper lemmas -/

lemma set_getElem?_self {α : Type _} {l : List α} {i : Nat} {a : α}
    (h : l[i]? = some a) : l.set i a = l := by
  obtain ⟨hlt, _⟩ := List.getElem?_eq_some.mp h
  apply List.ext_getElem?
  intro n
  rw [List.getElem?_set]
  by_cases hin : i = n
  · subst hin
    simp only [if_pos rfl, hlt, if_true]
    exact h.symm
  · simp [hin]

/-- Lemma: `gcStep` either leaves the state unchanged, or both sprites of the
visited pair are alive and overlap and the step records the pair and
kills per the flags. -/
lemma gcStep_eq (k1 k2 : Bool) (st : GCState) (p : Nat × Nat) :
    gcStep k1 k2 st p = st ∨
    ∃ s1 s2, st.g1[p.1]? = some s1 ∧ st.g2[p.2]? = some s2 ∧
      s1.alive = true ∧ s2.alive = true ∧ checkCollision s1.rect s2.rect = true ∧
      gcStep k1 k2 st p =
        { g1 := if k1 then st.g1.set p.1 (kill s1) else st.g1
          g2 := if k2 then st.g2.set p.2 (kill s2) else st.g2
          colls := st.colls ++ [p] } := by
  unfold gcStep
  split
  · next s1 s2 h1 h2 =>
    split
    · next hcol =>
      simp only [Bool.and_eq_true] at hcol
      exact Or.inr ⟨s1, s2, h1, h2, hcol.1.1, hcol.1.2, hcol.2, rfl⟩
    · exact Or.inl rfl
  · exact Or.inl rfl

lemma gcStep_rects1 (k1 k2 : Bool) (st : GCState) (p : Nat × Nat) :
    (gcStep k1 k2 st p).g1.map Sp.rect = st.g1.map Sp.rect := by
  rcases gcStep_eq k1 k2 st p with heq | ⟨s1, _, h1, _, _, _, _, heq⟩
  · rw [heq]
  · rw [heq]
    by_cases hk : k1 = true
    · simp only [hk, if_true, List.map_set]
      exact set_getElem?_self (by rw [List.getElem?_map, h1]; rfl)
    · simp [hk]

lemma gcStep_rects2 (k1 k2 : Bool) (st : GCState) (p : Nat × Nat) :
    (gcStep k1 k2 st p).g2.map Sp.rect = st.g2.map Sp.rect := by
  rcases gcStep_eq k1 k2 st p with heq | ⟨_, s2, _, h2, _, _, _, heq⟩
  · rw [heq]
  · rw [heq]
    by_cases hk : k2 = true
    · simp only [hk, if_true, List.map_set]
      exact set_getElem?_self (by rw [List.getElem?_map, h2]; rfl)
    · simp [hk]

lemma foldl_gc_rects1 (k1 k2 : Bool) (P : List (Nat × Nat)) (st : GCState) :
    (P.foldl (gcStep k1 k2) st).g1.map Sp.rect = st.g1.map Sp.rect := by
  induction P generalizing st with
  | nil => rfl
  | cons p ps ih => rw [List.foldl_cons, ih, gcStep_rects1]

lemma foldl_gc_rects2 (k1 k2 : Bool) (P : List (Nat × Nat)) (st : GCState) :
    (P.foldl (gcStep k1 k2) st).g2.map Sp.rect = st.g2.map Sp.rect := by
  induction P generalizing st with
  | nil => rfl
  | cons p ps ih => rw [List.foldl_cons, ih, gcStep_rects2]

lemma gcStep_inv1 (k1 k2 : Bool) (l1 : List Sp) (st : GCState) (p : Nat × Nat)
    (h : GCInv1 k1 l1 st) : GCInv1 k1 l1 (gcStep k1 k2 st p) := by
  obtain ⟨hmono, hkill, hinit⟩ := h
  rcases gcStep_eq k1 k2 st p with heq | ⟨s1, s2, h1, h2, ha1, ha2, hc, heq⟩
  · rw [heq]; exact ⟨hmono, hkill, hinit⟩
  · rw [heq]
    obtain ⟨hlt, _⟩ := List.getElem?_eq_some.mp h1
    have hcur : (st.g1[p.1]?).map Sp.alive = some true := by rw [h1]; simp [ha1]
    refine ⟨?_, ?_, ?_⟩
    · intro i hi
      apply hmono i
      by_cases hk : k1 = true
      · simp only [hk, if_true] at hi
        by_cases hip : p.1 = i
        · subst hip
          rw [List.getElem?_set_self hlt] at hi
          simp [kill] at hi
        · rwa [List.getElem?_set_ne hip] at hi
      · simpa [hk] using hi
    · intro hk
      obtain ⟨hnd, hdead⟩ := hkill hk
      simp only [hk, if_true]
      constructor
      · rw [List.map_append, List.nodup_append]
        refine ⟨hnd, List.nodup_singleton _, ?_⟩
        intro x hx hx1
        simp only [List.map_cons, List.map_nil, List.mem_singleton] at hx1
        subst hx1
        obtain ⟨q, hq, hq1⟩ := List.mem_map.mp hx
        have := hdead q hq
        rw [hq1, hcur] at this
        simp at this
      · intro q hq
        rcases List.mem_append.mp hq with hq | hq
        · have hd := hdead q hq
          by_cases hqp : q.1 = p.1
          · rw [hqp, hcur] at hd; simp at hd
          · rwa [List.getElem?_set_ne (fun h => hqp h.symm)]
        · simp only [List.mem_singleton] at hq
          subst hq
          rw [List.getElem?_set_self hlt]
          rfl
    · intro q hq
      rcases List.mem_append.mp hq with hq | hq
      · exact hinit q hq
      · simp only [List.mem_singleton] at hq
        subst hq
        exact hmono _ hcur

lemma gcStep_inv2 (k1 k2 : Bool) (l2 : List Sp) (st : GCState) (p : Nat × Nat)
    (h : GCInv2 k2 l2 st) : GCInv2 k2 l2 (gcStep k1 k2 st p) := by
  obtain ⟨hmono, hkill, hinit⟩ := h
  rcases gcStep_eq k1 k2 st p with heq | ⟨s1, s2, h1, h2, ha1, ha2, hc, heq⟩
  · rw [heq]; exact ⟨hmono, hkill, hinit⟩
  · rw [heq]
    obtain ⟨hlt, _⟩ := List.getElem?_eq_some.mp h2
    have hcur : (st.g2[p.2]?).map Sp.alive = some true := by rw [h2]; simp [ha2]
    refine ⟨?_, ?_, ?_⟩
    · intro j hj
      apply hmono j
      by_cases hk : k2 = true
      · simp only [hk, if_true] at hj
        by_cases hjp : p.2 = j
        · subst hjp
          rw [List.getElem?_set_self hlt] at hj
          simp [kill] at hj
        · rwa [List.getElem?_set_ne hjp] at hj
      · simpa [hk] using hj
    · intro hk
      obtain ⟨hnd, hdead⟩ := hkill hk
      simp only [hk, if_true]
      constructor
      · rw [List.map_append, List.nodup_append]
        refine ⟨hnd, List.nodup_singleton _, ?_⟩
        intro x hx hx1
        simp only [List.map_cons, List.map_nil, List.mem_singleton] at hx1
        subst hx1
        obtain ⟨q, hq, hq1⟩ := List.mem_map.mp hx
        have := hdead q hq
        rw [hq1, hcur] at this
        simp at this
      · intro q hq
        rcases List.mem_append.mp hq with hq | hq
        · have hd := hdead q hq
          by_cases hqp : q.2 = p.2
          · rw [hqp, hcur] at hd; simp at hd
          · rwa [List.getElem?_set_ne (fun h => hqp h.symm)]
        · simp only [List.mem_singleton] at hq
          subst hq
          rw [List.getElem?_set_self hlt]
          rfl
    · intro q hq
      rcases List.mem_append.mp hq with hq | hq
      · exact hinit q hq
      · simp only [List.mem_singleton] at hq
        subst hq
        exact hmono _ hcur

lemma foldl_gc_inv1 (k1 k2 : Bool) (l1 : List Sp) (P : List (Nat × Nat))
    (st : GCState) (h : GCInv1 k1 l1 st) :
    GCInv1 k1 l1 (P.foldl (gcStep k1 k2) st) := by
  induction P generalizing st with
  | nil => exact h
  | cons p ps ih => exact ih _ (gcStep_inv1 k1 k2 l1 st p h)

lemma foldl_gc_inv2 (k1 k2 : Bool) (l2 : List Sp) (P : List (Nat × Nat))
    (st : GCState) (h : GCInv2 k2 l2 st) :
    GCInv2 k2 l2 (P.foldl (gcStep k1 k2) st) := by
  induction P generalizing st with
  | nil => exact h
  | cons p ps ih => exact ih _ (gcStep_inv2 k1 k2 l2 st p h)

lemma groupCollide_inv1 (l1 l2 : List Sp) (k1 k2 : Bool) :
    GCInv1 k1 l1 (groupCollide l1 l2 k1 k2) := by
  apply foldl_gc_inv1
  exact ⟨fun i hi => hi, fun _ => ⟨List.nodup_nil, by simp⟩, by simp⟩

lemma groupCollide_inv2 (l1 l2 : List Sp) (k1 k2 : Bool) :
    GCInv2 k2 l2 (groupCollide l1 l2 k1 k2) := by
  apply foldl_gc_inv2
  exact ⟨fun j hj => hj, fun _ => ⟨List.nodup_nil, by simp⟩, by simp⟩

lemma groupCollide_g1_rects (l1 l2 : List Sp) (k1 k2 : Bool) :
    (groupCollide l1 l2 k1 k2).g1.map Sp.rect = l1.map Sp.rect :=
  foldl_gc_rects1 k1 k2 _ _

lemma groupCollide_g2_rects (l1 l2 : List Sp) (k1 k2 : Bool) :
    (groupCollide l1 l2 k1 k2).g2.map Sp.rect = l2.map Sp.rect :=
  foldl_gc_rects2 k1 k2 _ _

lemma groupCollide_g2_length (l1 l2 : List Sp) (k1 k2 : Bool) :
    (groupCollide l1 l2 k1 k2).g2.length = l2.length := by
  have h := congrArg List.length (groupCollide_g2_rects l1 l2 k1 k2)
  simpa using h

lemma pairIndices_zero (m : Nat) : pairIndices m 0 = [] := by
  simp [pairIndices]

lemma groupCollide_nil_right (l : List Sp) (k1 k2 : Bool) :
    groupCollide l [] k1 k2 = ⟨l, [], []⟩ := by
  unfold groupCollide
  rw [show ([] : List Sp).length = 0 from rfl, pairIndices_zero]
  rfl

lemma playerInv_mkPlayer : PlayerInv mkPlayer := by
  refine ⟨rfl, 125, ?_, by norm_num⟩
  norm_num [mkPlayer]

lemma playerInv_update (left right : Bool) (s : Sp) (h : PlayerInv s) :
    PlayerInv (playerUpdate left right s) := by
  obtain ⟨hw, k, hx, hk⟩ := h
  unfold playerUpdate PlayerInv
  dsimp only
  split_ifs with h1 h2 h2
  · -- moved left then right: net x unchanged
    refine ⟨hw, k, ?_, hk⟩
    dsimp only
    rw [hx]; ring
  · -- moved left only
    simp only [Bool.and_eq_true, decide_eq_true_eq] at h1
    have hkpos : 1 ≤ k := by
      rcases Nat.eq_zero_or_pos k with h0 | h0
      · exfalso; rw [h0] at hx; simp at hx; rw [hx] at h1; exact lt_irrefl _ h1.2
      · exact h0
    refine ⟨hw, k - 1, ?_, ?_⟩
    · dsimp only
      rw [Nat.cast_sub hkpos, hx]; push_cast; ring
    · calc ((k - 1 : ℕ) : ℚ) ≤ (k : ℚ) := by exact_mod_cast Nat.sub_le k 1
        _ ≤ 250 := hk
  · -- moved right only
    simp only [Bool.and_eq_true, decide_eq_true_eq] at h2
    have hklt : (k : ℚ) < 250 := by
      have := h2.2
      rw [hx, hw] at this
      unfold WIDTH at this
      linarith
    have hkn : k + 1 ≤ 250 := by
      have : k < 250 := by exact_mod_cast hklt
      omega
    refine ⟨hw, k + 1, ?_, ?_⟩
    · dsimp only
      rw [hx]; push_cast; ring
    · exact_mod_cast hkn
  · exact ⟨hw, k, hx, hk⟩

lemma reachable_playerInv (s : Sp) (h : ReachablePlayer s) : PlayerInv s := by
  induction h with
  | init => exact playerInv_mkPlayer
  | step l r t ht ih => exact playerInv_update l r t ih

lemma length_range_flatMap (n m : Nat) (f : Nat → Nat → Sp) :
    ((List.range n).flatMap (fun row => (List.range m).map (f row))).length
      = n * m := by
  rw [List.length_flatMap]
  simp [Function.comp_def, List.map_const']

lemma mkAliens_length (level : Nat) :
    (mkAliens level).length = (3 + (level - 1)) * 10 := by
  unfold mkAliens
  rw [length_range_flatMap]

lemma spriteCollide_nil (probe : Sp) (dk : Bool) :
    spriteCollide probe [] dk = ([], []) := by
  unfold spriteCollide
  split <;> rfl

lemma spriteCollide_length_pos (probe : Sp) (l : List Sp) (dk : Bool)
    (hp : probe.alive = true) (b : Sp) (hb : b ∈ l) (hba : b.alive = true)
    (hcol : checkCollision probe.rect b.rect = true) :
    0 < (spriteCollide probe l dk).1.length := by
  unfold spriteCollide
  rw [if_neg (by simp [hp])]
  dsimp only
  have hmem : b ∈ l.filter (fun s => s.alive && checkCollision probe.rect s.rect) :=
    List.mem_filter.mpr ⟨hb, by simp [hba, hcol]⟩
  exact List.length_pos.mpr (List.ne_nil_of_mem hmem)

lemma spriteCollide_killed (probe : Sp) (l : List Sp) (hp : probe.alive = true) :
    ∀ b ∈ (spriteCollide probe l true).2,
      checkCollision probe.rect b.rect = true → b.alive = false := by
  unfold spriteCollide
  rw [if_neg (by simp [hp])]
  dsimp only
  intro b hb hcol
  obtain ⟨a, _, rfl⟩ := List.mem_map.mp hb
  by_cases h : (a.alive && checkCollision probe.rect a.rect && true) = true
  · rw [if_pos h]; rfl
  · rw [if_neg h]
    rw [if_neg h] at hcol
    simp only [Bool.and_true, Bool.and_eq_true] at h
    cases hA : a.alive with
    | false => rfl
    | true => exact absurd ⟨hA, hcol⟩ h

lemma spriteCollide_alive_mono (probe : Sp) (l : List Sp) (dk : Bool) (i : Nat)
    (h : ((spriteCollide probe l dk).2[i]?).map Sp.alive = some true) :
    (l[i]?).map Sp.alive = some true := by
  unfold spriteCollide at h
  by_cases hp : probe.alive = false
  · rwa [if_pos hp] at h
  · rw [if_neg hp] at h
    dsimp only at h
    rw [List.getElem?_map] at h
    cases hl : l[i]? with
    | none => rw [hl] at h; simp at h
    | some a =>
      rw [hl] at h
      simp only [Option.map_some'] at h ⊢
      by_cases hcase : (a.alive && checkCollision probe.rect a.rect && dk) = true
      · rw [if_pos hcase] at h
        simp [kill] at h
      · rwa [if_neg hcase] at h

lemma groupUpdate_eq_nil (f : Sp → Sp) (l : List Sp)
    (h : ∀ a ∈ l, a.alive = false) : groupUpdate f l = [] := by
  unfold groupUpdate
  rw [List.filter_eq_nil_iff.mpr (fun a ha => by simp [h a ha])]
  rfl

lemma updatePlaying_eq (k : Keys) (now lastShot : ℚ) (s : PlayState)
    (hR : k.keyR = false) (hQ : k.keyQ = false) :
    updatePlaying k now lastShot s =
      ((collideStage (moveStage k
          { s with bullets := (shootStage k.space now lastShot s.players s.bullets).1 })).1,
       (collideStage (moveStage k
          { s with bullets := (shootStage k.space now lastShot s.players s.bullets).1 })).2,
       (shootStage k.space now lastShot s.players s.bullets).2) := by
  unfold updatePlaying
  rw [hR, hQ]
  rfl

lemma moveStage_players (k : Keys) (s : PlayState) :
    (moveStage k s).players = groupUpdate (playerUpdate k.left k.right) s.players := rfl

lemma moveStage_enemyBullets (k : Keys) (s : PlayState) :
    (moveStage k s).enemyBullets = groupUpdate enemyBulletUpdate s.enemyBullets := rfl

lemma moveStage_level (k : Keys) (s : PlayState) : (moveStage k s).level = s.level := rfl

lemma moveStage_changeDir_of_edge (s : PlayState)
    (h : (s.movingRight = true ∧ ∃ a ∈ s.aliens, a.rect.x + a.rect.w ≥ WIDTH) ∨
         (s.movingRight = false ∧ ∃ a ∈ s.aliens, a.rect.x ≤ 0)) :
    (s.aliens.any (fun a =>
      (s.movingRight && decide (a.rect.x + a.rect.w ≥ WIDTH)) ||
      (!s.movingRight && decide (a.rect.x ≤ 0)))) = true := by
  rw [List.any_eq_true]
  rcases h with ⟨hdir, a, ha, hx⟩ | ⟨hdir, a, ha, hx⟩
  · exact ⟨a, ha, by simp [hdir, hx]⟩
  · exact ⟨a, ha, by simp [hdir, hx]⟩

lemma moveStage_movingRight_of_edge (k : Keys) (s : PlayState)
    (h : (s.movingRight = true ∧ ∃ a ∈ s.aliens, a.rect.x + a.rect.w ≥ WIDTH) ∨
         (s.movingRight = false ∧ ∃ a ∈ s.aliens, a.rect.x ≤ 0)) :
    (moveStage k s).movingRight = !s.movingRight := by
  unfold moveStage
  dsimp only
  rw [moveStage_changeDir_of_edge s h]
  rfl

lemma alienUpdate_y (mr : Bool) (m : ℚ) (a : Sp) :
    (alienUpdate mr m a).rect.y = a.rect.y := by
  unfold alienUpdate
  split <;> rfl

lemma alienUpdate_alive (mr : Bool) (m : ℚ) (a : Sp) :
    (alienUpdate mr m a).alive = a.alive := by
  unfold alienUpdate
  split <;> rfl

lemma moveStage_aliens_y_of_edge (k : Keys) (s : PlayState)
    (h : (s.movingRight = true ∧ ∃ a ∈ s.aliens, a.rect.x + a.rect.w ≥ WIDTH) ∨
         (s.movingRight = false ∧ ∃ a ∈ s.aliens, a.rect.x ≤ 0)) :
    (moveStage k s).aliens.map (fun a => a.rect.y) =
      (s.aliens.filter (fun a => a.alive)).map
        (fun a => a.rect.y + (10 + (s.level : ℚ) * 5)) := by
  have hcd := moveStage_changeDir_of_edge s h
  simp only [moveStage, hcd, if_true]
  unfold groupUpdate
  rw [List.filter_map, List.map_map, List.map_map]
  have hcomp : ((fun (a : Sp) => a.alive) ∘
      (fun a => { a with rect := { a.rect with y := a.rect.y + (10 + (s.level : ℚ) * 5) } }))
      = fun (a : Sp) => a.alive := rfl
  rw [hcomp]
  apply List.map_congr_left
  intro a _
  simp only [Function.comp_apply]
  rw [alienUpdate_y]

lemma moveStage_aliens_nil (k : Keys) (s : PlayState)
    (h : ∀ a ∈ s.aliens, a.alive = false) : (moveStage k s).aliens = [] := by
  unfold moveStage
  dsimp only
  apply groupUpdate_eq_nil
  split
  · intro a ha
    obtain ⟨b, hb, rfl⟩ := List.mem_map.mp ha
    exact h b hb
  · exact h

lemma collideStage_movingRight (t : PlayState) :
    (collideStage t).2.movingRight = t.movingRight := by
  unfold collideStage
  dsimp only
  repeat' split
  all_goals rfl

lemma collideStage_aliens_rects (t : PlayState) :
    (collideStage t).2.aliens.map Sp.rect = t.aliens.map Sp.rect := by
  unfold collideStage
  dsimp only
  repeat' split
  all_goals exact groupCollide_g2_rects t.bullets t.aliens true true

lemma collideStage_gameOver (t : PlayState) (p : Sp)
    (hp : t.players.head? = some p) (hpa : p.alive = true)
    (b : Sp) (hb : b ∈ t.enemyBullets) (hba : b.alive = true)
    (hcol : checkCollision p.rect b.rect = true) :
    (collideStage t).1 = Outcome.gameOver ∧
    (collideStage t).2.players = t.players ∧
    (collideStage t).2.enemyBullets = (spriteCollide p t.enemyBullets true).2 := by
  unfold collideStage
  dsimp only
  rw [hp]
  dsimp only
  rw [if_pos (spriteCollide_length_pos p t.enemyBullets true hpa b hb hba hcol)]
  exact ⟨rfl, rfl, rfl⟩

lemma collideStage_levelComplete (t : PlayState)
    (ha : t.aliens = []) (he : t.enemyBullets = []) :
    (collideStage t).1 = Outcome.levelComplete := by
  have hgc : groupCollide t.bullets t.aliens true true = ⟨t.bullets, [], []⟩ := by
    rw [ha]; exact groupCollide_nil_right _ _ _
  unfold collideStage
  dsimp only
  rw [hgc, he]
  dsimp only
  cases hh : t.players.head? with
  | none =>
    dsimp only
    simp
  | some p =>
    dsimp only
    rw [spriteCollide_nil p true]
    dsimp only
    rw [if_neg (by simp)]
    rw [spriteCollide_nil p false]
    dsimp only
    rw [if_neg (by simp)]
    simp

/-! ### Claim theorems -/

/-- C1 counterexample: a bullet that is alive at the start of an update
pass and kills itself during the pass (it moves from y = −10 to y = −17,
so `y + height < 0` fires) is still a member of the group once the pass
completes — its alive flag is false but it is only pruned on the *next*
pass.  This refutes the claim that an entity killed during the pass is
absent from the group after the pass. -/
theorem C1_counterexample :
    groupUpdate bulletUpdate
        [{ rect := { x := 0, y := -10, w := 5, h := 15 }, alive := true }]
      = [{ rect := { x := 0, y := -17, w := 5, h := 15 }, alive := false }] := by
  norm_num [groupUpdate, bulletUpdate, kill]

/-- C1 (amended): after one `SpriteGroup.update` pass the group contains
exactly the updates of the entities that were alive at the start of the
pass — including any whose alive flag became false during the pass; those
are pruned only at the start of the following pass. -/
theorem C1_update_pass_membership (f : Sp → Sp) (l : List Sp) :
    (∀ s, s ∈ l → s.alive = true → f s ∈ groupUpdate f l) ∧
    (∀ t, t ∈ groupUpdate f l → ∃ s, s ∈ l ∧ s.alive = true ∧ t = f s) := by
  constructor
  · intro s hs ha
    exact List.mem_map.mpr ⟨s, List.mem_filter.mpr ⟨hs, by simp [ha]⟩, rfl⟩
  · intro t ht
    obtain ⟨s, hs, rfl⟩ := List.mem_map.mp ht
    obtain ⟨hs1, hs2⟩ := List.mem_filter.mp hs
    exact ⟨s, hs1, by simpa using hs2, rfl⟩

/-- Witness for C1: the self-killed bullet of the counterexample is a
member of the group after the pass, via the amended membership theorem. -/
theorem C1_witness :
    bulletUpdate { rect := { x := 0, y := -10, w := 5, h := 15 }, alive := true } ∈
      groupUpdate bulletUpdate
        [{ rect := { x := 0, y := -10, w := 5, h := 15 }, alive := true }] :=
  (C1_update_pass_membership bulletUpdate _).1 _ (by simp) rfl

/-- C2: from any reachable player position, under any input state, the
player's box stays within the horizontal interval [0, screen width]:
`0 ≤ x` and `x + width ≤ 800`. -/
theorem C2_player_clamped (s : Sp) (h : ReachablePlayer s) :
    0 ≤ s.rect.x ∧ s.rect.x + s.rect.w ≤ WIDTH := by
  obtain ⟨hw, k, hx, hk⟩ := reachable_playerInv s h
  rw [hx, hw]
  unfold WIDTH
  constructor
  · positivity
  · linarith

/-- Witness for C2: the player after one left-move from the initial
position is still in bounds. -/
theorem C2_witness :
    0 ≤ (playerUpdate true false mkPlayer).rect.x ∧
    (playerUpdate true false mkPlayer).rect.x
      + (playerUpdate true false mkPlayer).rect.w ≤ WIDTH :=
  C2_player_clamped _ (ReachablePlayer.step true false mkPlayer ReachablePlayer.init)

/-- C4: in one `groupCollide` call, aliveness only ever decreases (so each
alive flag transitions true→false at most once per call); with a kill
flag set, the corresponding components of the recorded matches are
pairwise distinct (an entity killed by an earlier match participates in
no further match); and every recorded match involves entities that were
alive when the call started (an entity dead at call time matches
nothing). -/
theorem C4_groupCollide_no_double_kill (l1 l2 : List Sp) (k1 k2 : Bool) :
    (∀ i : Nat, ((groupCollide l1 l2 k1 k2).g1[i]?).map Sp.alive = some true →
      (l1[i]?).map Sp.alive = some true) ∧
    (∀ j : Nat, ((groupCollide l1 l2 k1 k2).g2[j]?).map Sp.alive = some true →
      (l2[j]?).map Sp.alive = some true) ∧
    (k1 = true → ((groupCollide l1 l2 k1 k2).colls.map Prod.fst).Nodup) ∧
    (k2 = true → ((groupCollide l1 l2 k1 k2).colls.map Prod.snd).Nodup) ∧
    (∀ p ∈ (groupCollide l1 l2 k1 k2).colls,
      (l1[p.1]?).map Sp.alive = some true ∧ (l2[p.2]?).map Sp.alive = some true) := by
  obtain ⟨m1, kk1, i1⟩ := groupCollide_inv1 l1 l2 k1 k2
  obtain ⟨m2, kk2, i2⟩ := groupCollide_inv2 l1 l2 k1 k2
  exact ⟨m1, m2, fun h => (kk1 h).1, fun h => (kk2 h).1,
    fun p hp => ⟨i1 p hp, i2 p hp⟩⟩

/-- Witness for C4: two player bullets on one alien with both kill flags
set — the recorded matches name the alien at most once. -/
theorem C4_witness :
    ((groupCollide
        [{ rect := { x := 0, y := 0, w := 5, h := 15 }, alive := true },
         { rect := { x := 1, y := 1, w := 5, h := 15 }, alive := true }]
        [{ rect := { x := 0, y := 0, w := 30, h := 20 }, alive := true }]
        true true).colls.map Prod.snd).Nodup :=
  (C4_groupCollide_no_double_kill
    [{ rect := { x := 0, y := 0, w := 5, h := 15 }, alive := true },
     { rect := { x := 1, y := 1, w := 5, h := 15 }, alive := true }]
    [{ rect := { x := 0, y := 0, w := 30, h := 20 }, alive := true }]
    true true).2.2.2.1 rfl

/-- C6: with aliens remaining, the speed multiplier equals
`1 + (initialAlienCount − currentAlienCount) / initialAlienCount`;
at 30 of 30 aliens it is exactly 1 and at 1 of 30 exactly 59/30. -/
theorem C6_speed_multiplier (initCount curCount : Nat) (h : 0 < curCount) :
    speedMultiplier initCount curCount
        = 1 + ((initCount : ℚ) - (curCount : ℚ)) / (initCount : ℚ) ∧
    speedMultiplier 30 30 = 1 ∧ speedMultiplier 30 1 = 59 / 30 := by
  refine ⟨?_, ?_, ?_⟩
  · unfold speedMultiplier
    rw [if_pos h]
  · norm_num [speedMultiplier]
  · norm_num [speedMultiplier]

/-- Witness for C6 at one remaining alien out of 30. -/
theorem C6_witness : speedMultiplier 30 1 = 59 / 30 :=
  (C6_speed_multiplier 30 1 (by norm_num)).2.2

/-- C7: the enemy-fire timer period is `max(600 − (N−1)·100, 300)`:
600 at level 1, 400 at level 3, and the clamped minimum 300 for every
level ≥ 4. -/
theorem C7_enemy_fire_period :
    (∀ N : Nat, 1 ≤ N →
      alienShootInterval N = max (600 - ((N : ℤ) - 1) * 100) 300) ∧
    alienShootInterval 1 = 600 ∧ alienShootInterval 3 = 400 ∧
    (∀ N : Nat, 4 ≤ N → alienShootInterval N = 300) := by
  refine ⟨fun N _ => rfl, by decide, by decide, ?_⟩
  intro N hN
  unfold alienShootInterval
  apply max_eq_right
  have h4 : (4 : ℤ) ≤ (N : ℤ) := by exact_mod_cast hN
  nlinarith

/-- Witness for C7 at level 5: the period is clamped to 300. -/
theorem C7_witness : alienShootInterval 5 = 300 :=
  C7_enemy_fire_period.2.2.2 5 (by norm_num)

/-- C9: from LEVEL_COMPLETE, a confirm-key press increments the level;
the game goes to PLAYING with a fresh session of the new level while the
new level is at most 3, and to VICTORY once it exceeds 3. -/
theorem C9_level_complete_transition (level : Nat) (enter escape : Bool)
    (h : enter = true) :
    (updateLevelComplete enter escape level).1 = level + 1 ∧
    (level + 1 ≤ 3 →
      (updateLevelComplete enter escape level).2.1 = GState.PLAYING ∧
      (updateLevelComplete enter escape level).2.2
        = some (startGameLoop (level + 1))) ∧
    (3 < level + 1 →
      (updateLevelComplete enter escape level).2.1 = GState.VICTORY) := by
  have hcond : (enter || escape) = true := by rw [h]; rfl
  unfold updateLevelComplete
  rw [if_pos hcond]
  by_cases h3 : level + 1 > 3
  · rw [if_pos h3]
    exact ⟨rfl, fun hle => absurd h3 (not_lt.mpr hle), fun _ => rfl⟩
  · rw [if_neg h3]
    exact ⟨rfl, fun _ => ⟨rfl, rfl⟩, fun hgt => absurd hgt h3⟩

/-- Witness for C9: completing level 2 goes to PLAYING at level 3;
completing level 3 goes to VICTORY. -/
theorem C9_witness :
    (updateLevelComplete true false 2).2.1 = GState.PLAYING ∧
    (updateLevelComplete true false 3).2.1 = GState.VICTORY :=
  ⟨((C9_level_complete_transition 2 true false rfl).2.1 (by norm_num)).1,
   (C9_level_complete_transition 3 true false rfl).2.2 (by norm_num)⟩

/-- C10: the alive flag is monotone.  Every constructor creates an alive
sprite; `kill` sets the flag false (and touches nothing else); every
per-kind update either preserves the flag or only lowers it; and both
collision routines never raise a dead flag back to true — so within one
session a dead entity stays dead (it is pruned, never revived). -/
theorem C10_alive_flag_monotone :
    mkPlayer.alive = true ∧
    (∀ x y : ℚ, (mkBullet x y).alive = true ∧ (mkEnemyBullet x y).alive = true ∧
      (mkAlien x y).alive = true) ∧
    (∀ s : Sp, (kill s).alive = false ∧ (kill s).rect = s.rect) ∧
    (∀ s : Sp, (bulletUpdate s).alive = true → s.alive = true) ∧
    (∀ s : Sp, (enemyBulletUpdate s).alive = true → s.alive = true) ∧
    (∀ (mr : Bool) (m : ℚ) (s : Sp), (alienUpdate mr m s).alive = s.alive) ∧
    (∀ (l r : Bool) (s : Sp), (playerUpdate l r s).alive = s.alive) ∧
    (∀ (probe : Sp) (l : List Sp) (dk : Bool) (i : Nat),
      ((spriteCollide probe l dk).2[i]?).map Sp.alive = some true →
        (l[i]?).map Sp.alive = some true) ∧
    (∀ (l1 l2 : List Sp) (k1 k2 : Bool) (i : Nat),
      ((groupCollide l1 l2 k1 k2).g1[i]?).map Sp.alive = some true →
        (l1[i]?).map Sp.alive = some true) ∧
    (∀ (l1 l2 : List Sp) (k1 k2 : Bool) (j : Nat),
      ((groupCollide l1 l2 k1 k2).g2[j]?).map Sp.alive = some true →
        (l2[j]?).map Sp.alive = some true) := by
  refine ⟨rfl, fun x y => ⟨rfl, rfl, rfl⟩, fun s => ⟨rfl, rfl⟩, ?_, ?_, ?_, ?_,
    spriteCollide_alive_mono, ?_, ?_⟩
  · intro s h
    unfold bulletUpdate at h
    dsimp only at h
    split at h
    · simp [kill] at h
    · exact h
  · intro s h
    unfold enemyBulletUpdate at h
    dsimp only at h
    split at h
    · simp [kill] at h
    · exact h
  · exact alienUpdate_alive
  · intro l r s
    unfold playerUpdate
    dsimp only
    split
    · split <;> rfl
    · split <;> rfl
  · exact fun l1 l2 k1 k2 => (groupCollide_inv1 l1 l2 k1 k2).1
  · exact fun l1 l2 k1 k2 => (groupCollide_inv2 l1 l2 k1 k2).1

/-- Witness for C10: a bullet whose update leaves it on screen was alive
before its update. -/
theorem C10_witness :
    ({ rect := { x := 0, y := 100, w := 5, h := 15 }, alive := true } : Sp).alive
      = true :=
  C10_alive_flag_monotone.2.2.2.1
    { rect := { x := 0, y := 100, w := 5, h := 15 }, alive := true }
    (by norm_num [bulletUpdate])

/-- C3 counterexample: a PLAYING frame in which the player's box overlaps
an enemy bullet's box.  The outcome is game over and the bullet is
killed, but the player is NOT removed: it is still the sole member of its
group with `alive = true` — `spriteCollide(player, enemyBulletGroup,
true)` kills only the bullets, never the player.  This refutes "both the
player and the enemy bullet are removed". -/
theorem C3_counterexample :
    (updatePlaying idleKeys 0 0 hitState).1 = Outcome.gameOver ∧
    (updatePlaying idleKeys 0 0 hitState).2.1.enemyBullets
      = [{ rect := { x := 795 / 2, y := 533, w := 5, h := 15 }, alive := false }] ∧
    (updatePlaying idleKeys 0 0 hitState).2.1.players = [mkPlayer] ∧
    mkPlayer.alive = true := by
  refine ⟨?_, ?_, ?_, rfl⟩ <;>
    norm_num [updatePlaying, shootStage, moveStage, collideStage, hitState, idleKeys,
      mkPlayer, mkEnemyBullet, mkAlien, groupUpdate, playerUpdate, enemyBulletUpdate,
      alienUpdate, speedMultiplier, groupCollide, pairIndices, gcStep, spriteCollide,
      checkCollision, kill, List.range_succ, WIDTH, HEIGHT]

/-- C3 (amended): whenever, during a PLAYING frame, the (live) player's
box overlaps a live enemy bullet's box at the collision-check point, the
frame's outcome is GAME_OVER, the remaining steps are skipped, and every
enemy bullet overlapping the player is killed; the player itself is not
removed — its group is left untouched by this step. -/
theorem C3_player_hit_game_over (k : Keys) (now lastShot : ℚ) (s : PlayState)
    (hR : k.keyR = false) (hQ : k.keyQ = false) (p b : Sp)
    (hp : (moveStage k { s with bullets :=
        (shootStage k.space now lastShot s.players s.bullets).1 }).players.head?
        = some p)
    (hpa : p.alive = true)
    (hb : b ∈ (moveStage k { s with bullets :=
        (shootStage k.space now lastShot s.players s.bullets).1 }).enemyBullets)
    (hba : b.alive = true)
    (hcol : checkCollision p.rect b.rect = true) :
    (updatePlaying k now lastShot s).1 = Outcome.gameOver ∧
    (updatePlaying k now lastShot s).2.1.players.head? = some p ∧
    (∀ b2 ∈ (updatePlaying k now lastShot s).2.1.enemyBullets,
      checkCollision p.rect b2.rect = true → b2.alive = false) := by
  rw [updatePlaying_eq k now lastShot s hR hQ]
  dsimp only
  obtain ⟨h1, h2, h3⟩ := collideStage_gameOver
    (moveStage k { s with bullets :=
      (shootStage k.space now lastShot s.players s.bullets).1 })
    p hp hpa b hb hba hcol
  refine ⟨h1, ?_, ?_⟩
  · rw [h2]
    exact hp
  · rw [h3]
    exact spriteCollide_killed p _ hpa

/-- Witness for C3's amended theorem on the concrete overlap frame. -/
theorem C3_witness :
    (updatePlaying idleKeys 0 0 hitState).1 = Outcome.gameOver :=
  (C3_player_hit_game_over idleKeys 0 0 hitState rfl rfl mkPlayer
    { rect := { x := 795 / 2, y := 533, w := 5, h := 15 }, alive := true }
    (by rw [moveStage_players]
        norm_num [hitState, idleKeys, groupUpdate, playerUpdate, mkPlayer, WIDTH])
    rfl
    (by rw [moveStage_enemyBullets]
        norm_num [hitState, groupUpdate, enemyBulletUpdate, mkEnemyBullet, kill,
          HEIGHT])
    rfl
    (by norm_num [checkCollision, mkPlayer])).1

/-- C5: during a PLAYING frame, if the formation moves rightward and some
alien's right edge is at or beyond the screen's right edge (or moves
leftward and some alien's left edge is at or past 0), then after the
frame the direction is reversed and every alien's y coordinate has
increased by exactly `10 + level·5`. -/
theorem C5_formation_reversal (k : Keys) (now lastShot : ℚ) (s : PlayState)
    (hR : k.keyR = false) (hQ : k.keyQ = false)
    (h : (s.movingRight = true ∧ ∃ a ∈ s.aliens, a.rect.x + a.rect.w ≥ WIDTH) ∨
         (s.movingRight = false ∧ ∃ a ∈ s.aliens, a.rect.x ≤ 0)) :
    (updatePlaying k now lastShot s).2.1.movingRight = !s.movingRight ∧
    (updatePlaying k now lastShot s).2.1.aliens.map (fun a => a.rect.y)
      = (s.aliens.filter (fun a => a.alive)).map
          (fun a => a.rect.y + (10 + (s.level : ℚ) * 5)) := by
  rw [updatePlaying_eq k now lastShot s hR hQ]
  dsimp only
  constructor
  · rw [collideStage_movingRight]
    exact moveStage_movingRight_of_edge k _ h
  · have hr := collideStage_aliens_rects (moveStage k { s with bullets :=
      (shootStage k.space now lastShot s.players s.bullets).1 })
    have hy : ∀ l : List Sp,
        l.map (fun a => a.rect.y) = (l.map Sp.rect).map Rect.y := by
      intro l
      rw [List.map_map]
      rfl
    rw [hy, hr, ← hy]
    exact moveStage_aliens_y_of_edge k _ h

/-- Witness for C5: one alien at x = 790 with width 30 (right edge 820),
formation moving rightward at level 1 — after the frame the direction is
leftward and the alien's y went from 30 to 45 = 30 + (10 + 1·5). -/
theorem C5_witness :
    (updatePlaying idleKeys 0 0 edgeState).2.1.movingRight = !true ∧
    (updatePlaying idleKeys 0 0 edgeState).2.1.aliens.map (fun a => a.rect.y)
      = (edgeState.aliens.filter (fun a => a.alive)).map
          (fun a => a.rect.y + (10 + ((1 : Nat) : ℚ) * 5)) :=
  C5_formation_reversal idleKeys 0 0 edgeState rfl rfl
    (Or.inl ⟨rfl, mkAlien 790 30, by simp [edgeState],
      by norm_num [mkAlien, WIDTH]⟩)

/-- C8: a fresh level-N session has exactly `(3 + (N−1))·10` aliens — 30
at level 1 — recorded as `initialAlienCount`; and a PLAYING frame whose
alien group empties out (here: every alien already dead, so the pass
prunes them all) with no enemy bullet in flight ends in the
LEVEL_COMPLETE outcome. -/
theorem C8_alien_count_level_complete (N : Nat) (k : Keys) (now lastShot : ℚ)
    (s : PlayState) (_hN : 1 ≤ N)
    (hR : k.keyR = false) (hQ : k.keyQ = false)
    (hdead : ∀ a ∈ s.aliens, a.alive = false)
    (hnoEB : s.enemyBullets = []) :
    (startGameLoop N).aliens.length = (3 + (N - 1)) * 10 ∧
    (startGameLoop N).initialAlienCount = (3 + (N - 1)) * 10 ∧
    (startGameLoop 1).aliens.length = 30 ∧
    (updatePlaying k now lastShot s).1 = Outcome.levelComplete := by
  refine ⟨mkAliens_length N, mkAliens_length N, ?_, ?_⟩
  · have h1 := mkAliens_length 1
    norm_num at h1
    exact h1
  · rw [updatePlaying_eq k now lastShot s hR hQ]
    dsimp only
    apply collideStage_levelComplete
    · exact moveStage_aliens_nil k _ hdead
    · rw [moveStage_enemyBullets]
      show groupUpdate enemyBulletUpdate s.enemyBullets = []
      rw [hnoEB]
      rfl

/-- Witness for C8: level 2 has 40 aliens, and the all-aliens-dead frame
ends in LEVEL_COMPLETE. -/
theorem C8_witness :
    (startGameLoop 2).aliens.length = (3 + (2 - 1)) * 10 ∧
    (updatePlaying idleKeys 0 0 clearedState).1 = Outcome.levelComplete :=
  ⟨(C8_alien_count_level_complete 2 idleKeys 0 0 clearedState (by norm_num)
      rfl rfl
      (fun a ha => by
        rw [clearedState] at ha
        simp only [List.mem_singleton] at ha
        rw [ha])
      rfl).1,
   (C8_alien_count_level_complete 2 idleKeys 0 0 clearedState (by norm_num)
      rfl rfl
      (fun a ha => by
        rw [clearedState] at ha
        simp only [List.mem_singleton] at ha
        rw [ha])
      rfl).2.2.2⟩

end Jeu2
